import Mathlib

/-!
# Verification of the hushnote merge / label / render pipeline

A shallow embedding of the Python sources `merge_diarization.py`,
`apply_labels.py` and `label.py` of the hushnote repository, together with
proofs of the behavioural properties stated in the specification.

Timestamps (`float` seconds in the source) are modelled as exact rationals;
Python dictionaries keyed by speaker id are modelled as association lists in
insertion order; the interactive prompt loop of `label.py` is modelled by
explicit recursion over a script of user inputs.
-/

namespace Hushnote

/-- A speaker-turn interval produced by diarization:
`{speaker_id, start, end}` (`diarize.py` output contract). -/
structure SpeakerInterval where
  speaker_id : String
  start : ℚ
  «end» : ℚ
  deriving Repr, DecidableEq

/-- A transcribed text segment: `{start, end, text}`
(`transcribe.py` output contract). -/
structure TextSegment where
  start : ℚ
  «end» : ℚ
  text : String
  deriving Repr, DecidableEq

/-- A merged segment `{speaker_id, start, end, text}` as built by
`merge_diarization_transcription`. -/
structure MergedSegment where
  speaker_id : String
  start : ℚ
  «end» : ℚ
  text : String
  deriving Repr, DecidableEq

/-- Containment test of the first loop of `find_speaker_at_time`:
`segment["start"] <= timestamp <= segment["end"]`. -/
def containsTime (timestamp : ℚ) (s : SpeakerInterval) : Bool :=
  decide (s.start ≤ timestamp) && decide (timestamp ≤ s.«end»)

/-- Distance computed by the second loop of `find_speaker_at_time`:
`start - timestamp` before the interval, `timestamp - end` after it,
`0` when contained. -/
def segDistance (timestamp : ℚ) (s : SpeakerInterval) : ℚ :=
  if timestamp < s.start then s.start - timestamp
  else if timestamp > s.«end» then timestamp - s.«end»
  else 0

/-- The second loop of `find_speaker_at_time`: running minimum distance
(`none` models the initial `float('inf')`) and the current closest speaker,
updated only on a strict improvement (`distance < min_distance`). -/
def closestLoop (timestamp : ℚ) :
    List SpeakerInterval → Option ℚ → String → String
  | [], _, closest => closest
  | s :: rest, minDist, closest =>
      let d := segDistance timestamp s
      match minDist with
      | none => closestLoop timestamp rest (some d) s.speaker_id
      | some m =>
          if d < m then closestLoop timestamp rest (some d) s.speaker_id
          else closestLoop timestamp rest (some m) closest

/-- `find_speaker_at_time` (`merge_diarization.py`, lines 24–56): first
interval containing the timestamp wins; otherwise the closest interval by
`segDistance`, starting from `min_distance = inf` and
`closest_speaker = "UNKNOWN"`. -/
def find_speaker_at_time (timestamp : ℚ)
    (speaker_segments : List SpeakerInterval) : String :=
  match speaker_segments.find? (containsTime timestamp) with
  | some s => s.speaker_id
  | none => closestLoop timestamp speaker_segments none "UNKNOWN"

/-- Per-speaker statistics record (`speaker_stats` values). -/
structure SpeakerStat where
  total_time : ℚ
  segment_count : Nat
  word_count : Nat
  deriving Repr, DecidableEq

/-- Python `len(text.split())`: number of maximal whitespace-free runs. -/
def wordCount (text : String) : Nat :=
  ((text.split Char.isWhitespace).filter (· ≠ "")).length

/-- Association-list lookup, modelling Python `speaker in dict` /
`dict[speaker]`. -/
def alistFind? {β : Type} (m : List (String × β)) (k : String) : Option β :=
  (m.find? (fun p => p.1 = k)).map Prod.snd

/-- Update the value stored at an existing key of an association list
(Python in-place `dict[k] = v` for a key already present). -/
def alistSet {β : Type} (m : List (String × β)) (k : String) (v : β) :
    List (String × β) :=
  m.map (fun p => if p.1 = k then (k, v) else p)

/-- One iteration of the `speaker_stats` accumulation loop in
`merge_diarization_transcription`: insert a zero record on first encounter
(at the end, Python dict insertion order), then add the segment's time,
count and words. -/
def addSegStats (stats : List (String × SpeakerStat)) (seg : MergedSegment) :
    List (String × SpeakerStat) :=
  let base := match alistFind? stats seg.speaker_id with
    | some _ => stats
    | none => stats ++ [(seg.speaker_id, ⟨0, 0, 0⟩)]
  match alistFind? base seg.speaker_id with
  | some st =>
      alistSet base seg.speaker_id
        ⟨st.total_time + (seg.«end» - seg.start), st.segment_count + 1,
         st.word_count + wordCount seg.text⟩
  | none => base

/-- Diarization input of the merge stage: the fields of the diarize output
document that `merge_diarization_transcription` reads. -/
structure Diarization where
  segments : List SpeakerInterval
  num_speakers : Option Nat
  audio_file : Option String
  duration : Option ℚ
  deriving Repr, DecidableEq

/-- Transcription input of the merge stage: the fields of the transcribe
output document that `merge_diarization_transcription` reads. -/
structure Transcription where
  segments : List TextSegment
  duration : Option ℚ
  language : Option String
  deriving Repr, DecidableEq

/-- The merged result document (`result` dict of
`merge_diarization_transcription`, minus the wall-clock `created_at`). -/
structure MergeResult where
  audio_file : Option String
  duration : Option ℚ
  language : Option String
  num_speakers : Option Nat
  segments : List MergedSegment
  speaker_stats : List (String × SpeakerStat)
  deriving Repr, DecidableEq

/-- The merge loop of `merge_diarization_transcription`: one
`MergedSegment` appended per transcription segment, in input order. -/
def mergeLoop (speaker_segments : List SpeakerInterval) :
    List TextSegment → List MergedSegment
  | [] => []
  | ts :: rest =>
      { speaker_id := find_speaker_at_time ts.start speaker_segments,
        start := ts.start, «end» := ts.«end», text := ts.text } ::
      mergeLoop speaker_segments rest

/-- `merge_diarization_transcription` (`merge_diarization.py`, lines
59–127): merge the two timelines, accumulate `speaker_stats`, and assemble
the result document.  The function performs no validation of its inputs. -/
def merge_diarization_transcription (diarization : Diarization)
    (transcription : Transcription) : MergeResult :=
  let merged_segments := mergeLoop diarization.segments transcription.segments
  { audio_file := diarization.audio_file,
    duration := transcription.duration <|> diarization.duration,
    language := transcription.language,
    num_speakers := diarization.num_speakers,
    segments := merged_segments,
    speaker_stats := merged_segments.foldl addSegStats [] }

/-- Characterisation of the strict-improvement minimum loop when the running
minimum is already `m` with current champion `c`: either no element beats `m`
and the champion survives, or the result is the first element achieving the
minimum distance, which is below `m`. -/
lemma closestLoop_some_spec (t : ℚ) :
    ∀ (l : List SpeakerInterval) (m : ℚ) (c : String),
    (closestLoop t l (some m) c = c ∧ ∀ s ∈ l, m ≤ segDistance t s) ∨
    (∃ (i : ℕ) (hi : i < l.length),
      closestLoop t l (some m) c = l[i].speaker_id ∧
      segDistance t l[i] < m ∧
      (∀ (j : ℕ) (hj : j < l.length),
        segDistance t l[i] ≤ segDistance t l[j]) ∧
      (∀ (j : ℕ) (hj : j < l.length), j < i →
        segDistance t l[i] < segDistance t l[j])) := by
  intro l
  induction l with
  | nil =>
      intro m c
      left
      exact ⟨rfl, by simp⟩
  | cons s rest ih =>
      intro m c
      by_cases hd : segDistance t s < m
      · rcases ih (segDistance t s) s.speaker_id with
          ⟨heq, hall⟩ | ⟨i, hi, heq, hlt, hmin, hstrict⟩
        · right
          refine ⟨0, by simp, ?_, ?_, ?_, ?_⟩
          · simpa [closestLoop, hd] using heq
          · simpa using hd
          · intro j hj
            match j with
            | 0 => simp
            | j + 1 =>
                simp only [List.getElem_cons_zero, List.getElem_cons_succ]
                exact hall _ (List.getElem_mem _)
          · intro j hj hj0
            omega
        · right
          refine ⟨i + 1, by simpa using hi, ?_, ?_, ?_, ?_⟩
          · simpa [closestLoop, hd] using heq
          · simpa using hlt.trans hd
          · intro j hj
            match j with
            | 0 =>
                simpa using hlt.le
            | j + 1 =>
                simp only [List.getElem_cons_succ]
                exact hmin j (by simpa using hj)
          · intro j hj hji
            match j with
            | 0 =>
                simpa using hlt
            | j + 1 =>
                simp only [List.getElem_cons_succ]
                exact hstrict j (by simpa using hj) (by omega)
      · push_neg at hd
        rcases ih m c with
          ⟨heq, hall⟩ | ⟨i, hi, heq, hlt, hmin, hstrict⟩
        · left
          constructor
          · simpa [closestLoop, not_lt.mpr hd] using heq
          · intro x hx
            rcases List.mem_cons.mp hx with hx | hx
            · simpa [hx] using hd
            · exact hall x hx
        · right
          refine ⟨i + 1, by simpa using hi, ?_, ?_, ?_, ?_⟩
          · simpa [closestLoop, not_lt.mpr hd] using heq
          · simpa using hlt
          · intro j hj
            match j with
            | 0 =>
                simpa using (hlt.trans_le hd).le
            | j + 1 =>
                simp only [List.getElem_cons_succ]
                exact hmin j (by simpa using hj)
          · intro j hj hji
            match j with
            | 0 =>
                simpa using hlt.trans_le hd
            | j + 1 =>
                simp only [List.getElem_cons_succ]
                exact hstrict j (by simpa using hj) (by omega)

/-- On a non-empty list, starting from `min_distance = inf` and
`closest_speaker = "UNKNOWN"`, the loop returns the speaker of the first
interval achieving the minimum distance. -/
lemma closestLoop_none_spec (t : ℚ) (l : List SpeakerInterval) (c : String)
    (hne : l ≠ []) :
    ∃ (i : ℕ) (hi : i < l.length),
      closestLoop t l none c = l[i].speaker_id ∧
      (∀ (j : ℕ) (hj : j < l.length),
        segDistance t l[i] ≤ segDistance t l[j]) ∧
      (∀ (j : ℕ) (hj : j < l.length), j < i →
        segDistance t l[i] < segDistance t l[j]) := by
  match l with
  | [] => exact absurd rfl hne
  | s :: rest =>
      have hstep : closestLoop t (s :: rest) none c =
          closestLoop t rest (some (segDistance t s)) s.speaker_id := rfl
      rcases closestLoop_some_spec t rest (segDistance t s) s.speaker_id with
        ⟨heq, hall⟩ | ⟨i, hi, heq, hlt, hmin, hstrict⟩
      · refine ⟨0, by simp, ?_, ?_, ?_⟩
        · rw [hstep, heq]
          simp
        · intro j hj
          match j with
          | 0 => simp
          | j + 1 =>
              simp only [List.getElem_cons_zero, List.getElem_cons_succ]
              exact hall _ (List.getElem_mem _)
        · intro j hj hj0
          omega
      · refine ⟨i + 1, by simpa using hi, ?_, ?_, ?_⟩
        · rw [hstep, heq]
          simp
        · intro j hj
          match j with
          | 0 =>
              simpa using hlt.le
          | j + 1 =>
              simp only [List.getElem_cons_succ]
              exact hmin j (by simpa using hj)
        · intro j hj hji
          match j with
          | 0 =>
              simpa using hlt
          | j + 1 =>
              simp only [List.getElem_cons_succ]
              exact hstrict j (by simpa using hj) (by omega)

/-- C1: the Merge Engine assigns, for a text segment start timestamp, the
`speaker_id` of the first interval (in the collection's given order)
containing the timestamp; failing containment, on a non-empty collection,
the `speaker_id` of an interval of minimum boundary distance that is
strictly closer than every interval encountered before it (first-encountered
tie-break); and `"UNKNOWN"` on an empty collection. -/
theorem find_speaker_at_time_spec (t : ℚ) (segs : List SpeakerInterval) :
    (∀ s, segs.find? (containsTime t) = some s →
      find_speaker_at_time t segs = s.speaker_id) ∧
    (segs.find? (containsTime t) = none → segs ≠ [] →
      ∃ (i : ℕ) (hi : i < segs.length),
        find_speaker_at_time t segs = segs[i].speaker_id ∧
        (∀ (j : ℕ) (hj : j < segs.length),
          segDistance t segs[i] ≤ segDistance t segs[j]) ∧
        (∀ (j : ℕ) (hj : j < segs.length), j < i →
          segDistance t segs[i] < segDistance t segs[j])) ∧
    (segs = [] → find_speaker_at_time t segs = "UNKNOWN") := by
  refine ⟨?_, ?_, ?_⟩
  · intro s hs
    simp [find_speaker_at_time, hs]
  · intro hnone hne
    have := closestLoop_none_spec t segs "UNKNOWN" hne
    simpa [find_speaker_at_time, hnone] using this
  · intro h
    subst h
    rfl

/-- Witness for C1: at timestamp `8` with intervals `A = [0,1]` and
`B = [10,20]`, no interval contains `8` and the fallback applies. -/
theorem find_speaker_at_time_spec_witness :
    (([⟨"A", 0, 1⟩, ⟨"B", 10, 20⟩] : List SpeakerInterval).find?
        (containsTime 8) = none) ∧
    (∃ (i : ℕ) (hi : i < ([⟨"A", 0, 1⟩, ⟨"B", 10, 20⟩] :
          List SpeakerInterval).length),
      find_speaker_at_time 8 [⟨"A", 0, 1⟩, ⟨"B", 10, 20⟩] =
        ([⟨"A", 0, 1⟩, ⟨"B", 10, 20⟩] : List SpeakerInterval)[i].speaker_id ∧
      (∀ (j : ℕ) (hj : j < ([⟨"A", 0, 1⟩, ⟨"B", 10, 20⟩] :
          List SpeakerInterval).length),
        segDistance 8 ([⟨"A", 0, 1⟩, ⟨"B", 10, 20⟩] :
          List SpeakerInterval)[i] ≤
        segDistance 8 ([⟨"A", 0, 1⟩, ⟨"B", 10, 20⟩] :
          List SpeakerInterval)[j]) ∧
      (∀ (j : ℕ) (hj : j < ([⟨"A", 0, 1⟩, ⟨"B", 10, 20⟩] :
          List SpeakerInterval).length), j < i →
        segDistance 8 ([⟨"A", 0, 1⟩, ⟨"B", 10, 20⟩] :
          List SpeakerInterval)[i] <
        segDistance 8 ([⟨"A", 0, 1⟩, ⟨"B", 10, 20⟩] :
          List SpeakerInterval)[j])) :=
  ⟨rfl, (find_speaker_at_time_spec 8 _).2.1 rfl (by simp)⟩

/-- The merge loop is the map sending each text segment to its merged
segment. -/
lemma mergeLoop_eq_map (ss : List SpeakerInterval) (ts : List TextSegment) :
    mergeLoop ss ts = ts.map (fun t =>
      { speaker_id := find_speaker_at_time t.start ss,
        start := t.start, «end» := t.«end», text := t.text }) := by
  induction ts with
  | nil => rfl
  | cons t rest ih => simp [mergeLoop, ih]

/-- C2: on non-empty inputs the merged segment sequence has the length of
the text timeline, and position by position each output segment carries the
corresponding text segment's `start`, `end` and `text` together with exactly
the one `speaker_id` chosen by `find_speaker_at_time` at its start. -/
theorem merge_length_order (diarization : Diarization)
    (transcription : Transcription)
    (h1 : diarization.segments ≠ []) (h2 : transcription.segments ≠ []) :
    (merge_diarization_transcription diarization transcription).segments.length
        = transcription.segments.length ∧
    ∀ i : ℕ,
      (merge_diarization_transcription diarization transcription).segments[i]?
        = (transcription.segments[i]?).map (fun t =>
            { speaker_id := find_speaker_at_time t.start diarization.segments,
              start := t.start, «end» := t.«end», text := t.text }) := by
  constructor
  · simp [merge_diarization_transcription, mergeLoop_eq_map]
  · intro i
    simp [merge_diarization_transcription, mergeLoop_eq_map]

/-- Witness for C2 at one interval and one text segment. -/
theorem merge_length_order_witness :
    (([⟨"A", 0, 10⟩] : List SpeakerInterval) ≠ []) ∧
    (([⟨0, 1, "hi"⟩] : List TextSegment) ≠ []) ∧
    ((merge_diarization_transcription ⟨[⟨"A", 0, 10⟩], some 1, none, none⟩
        ⟨[⟨0, 1, "hi"⟩], none, none⟩).segments.length = 1 ∧
     ∀ i : ℕ,
      (merge_diarization_transcription ⟨[⟨"A", 0, 10⟩], some 1, none, none⟩
          ⟨[⟨0, 1, "hi"⟩], none, none⟩).segments[i]?
        = (([⟨0, 1, "hi"⟩] : List TextSegment)[i]?).map (fun t =>
            { speaker_id := find_speaker_at_time t.start [⟨"A", 0, 10⟩],
              start := t.start, «end» := t.«end», text := t.text })) :=
  ⟨by simp, by simp,
    merge_length_order ⟨[⟨"A", 0, 10⟩], some 1, none, none⟩
      ⟨[⟨0, 1, "hi"⟩], none, none⟩ (by simp) (by simp)⟩

/-- C3 counterexample: with an empty `SpeakerInterval` collection the merge
returns an ordinary successful document (all speakers `"UNKNOWN"`), not an
error: the function has no failure path at all. -/
theorem merge_empty_intervals_counterexample :
    merge_diarization_transcription ⟨[], none, none, none⟩
        ⟨[⟨0, 1, "hi"⟩], none, none⟩ =
      { audio_file := none, duration := none, language := none,
        num_speakers := none,
        segments := [⟨"UNKNOWN", 0, 1, "hi"⟩],
        speaker_stats := [("UNKNOWN", ⟨1, 1, 1⟩)] } := by
  with_unfolding_all rfl

/-- C3 amended: the merge performs no emptiness validation.  With an empty
interval collection every merged segment is `"UNKNOWN"`; with an empty text
timeline the result is a successful document with an empty segment list. -/
theorem merge_no_empty_validation (diarization : Diarization)
    (transcription : Transcription) :
    (diarization.segments = [] →
      ∀ m ∈ (merge_diarization_transcription diarization
          transcription).segments, m.speaker_id = "UNKNOWN") ∧
    (transcription.segments = [] →
      (merge_diarization_transcription diarization transcription).segments
        = []) := by
  constructor
  · intro hd m hm
    simp only [merge_diarization_transcription, mergeLoop_eq_map, hd,
      List.mem_map] at hm
    obtain ⟨t, -, rfl⟩ := hm
    rfl
  · intro ht
    simp [merge_diarization_transcription, mergeLoop_eq_map, ht]

/-- Witness for the amended C3. -/
theorem merge_no_empty_validation_witness :
    ((⟨[], none, none, none⟩ : Diarization).segments = [] ∧
      ∀ m ∈ (merge_diarization_transcription ⟨[], none, none, none⟩
          ⟨[⟨0, 1, "hi"⟩], none, none⟩).segments, m.speaker_id = "UNKNOWN") ∧
    ((⟨[], none, none⟩ : Transcription).segments = [] ∧
      (merge_diarization_transcription ⟨[⟨"A", 0, 10⟩], some 1, none, none⟩
          ⟨[], none, none⟩).segments = []) :=
  ⟨⟨rfl, (merge_no_empty_validation _ _).1 rfl⟩,
   ⟨rfl, (merge_no_empty_validation _ _).2 rfl⟩⟩

/-- Number of distinct `speaker_id` values across a merged segment list. -/
def countDistinctSpeakers (segs : List MergedSegment) : Nat :=
  ((segs.map (fun s => s.speaker_id)).dedup).length

/-- C6 counterexample: the diarization input reports two speakers but the
single merged segment only uses one, and the document's `num_speakers`
keeps the input value `2`, differing from the distinct count `1`. -/
theorem merge_num_speakers_counterexample :
    (merge_diarization_transcription
        ⟨[⟨"A", 0, 10⟩, ⟨"B", 20, 30⟩], some 2, none, none⟩
        ⟨[⟨0, 1, "hi"⟩], none, none⟩).num_speakers = some 2 ∧
    countDistinctSpeakers (merge_diarization_transcription
        ⟨[⟨"A", 0, 10⟩, ⟨"B", 20, 30⟩], some 2, none, none⟩
        ⟨[⟨0, 1, "hi"⟩], none, none⟩).segments = 1 ∧
    (merge_diarization_transcription
        ⟨[⟨"A", 0, 10⟩, ⟨"B", 20, 30⟩], some 2, none, none⟩
        ⟨[⟨0, 1, "hi"⟩], none, none⟩).num_speakers ≠
      some (countDistinctSpeakers (merge_diarization_transcription
        ⟨[⟨"A", 0, 10⟩, ⟨"B", 20, 30⟩], some 2, none, none⟩
        ⟨[⟨0, 1, "hi"⟩], none, none⟩).segments) := by
  refine ⟨by with_unfolding_all rfl, by with_unfolding_all rfl, ?_⟩
  have h1 : (merge_diarization_transcription
      ⟨[⟨"A", 0, 10⟩, ⟨"B", 20, 30⟩], some 2, none, none⟩
      ⟨[⟨0, 1, "hi"⟩], none, none⟩).num_speakers = some 2 := by
    with_unfolding_all rfl
  have h2 : countDistinctSpeakers (merge_diarization_transcription
      ⟨[⟨"A", 0, 10⟩, ⟨"B", 20, 30⟩], some 2, none, none⟩
      ⟨[⟨0, 1, "hi"⟩], none, none⟩).segments = 1 := by
    with_unfolding_all rfl
  rw [h1, h2]
  simp

/-- C6 amended: `num_speakers` of the merged document is copied verbatim
from the diarization input's `num_speakers` field; it is not recomputed
from the merged segments. -/
theorem merge_num_speakers_passthrough (diarization : Diarization)
    (transcription : Transcription) :
    (merge_diarization_transcription diarization transcription).num_speakers
      = diarization.num_speakers := rfl

/-- Python float floor division `a // b` (result kept as a number). -/
def pyFloorDiv (a b : ℚ) : ℚ := (⌊a / b⌋ : ℤ)

/-- Python float modulo `a % b`: remainder with the divisor's sign
(`a - b * (a // b)`). -/
def pyMod (a b : ℚ) : ℚ := a - b * (⌊a / b⌋ : ℤ)

/-- Python `int()` on a number: truncation toward zero. -/
def pyInt (q : ℚ) : ℤ := if q < 0 then -⌊-q⌋ else ⌊q⌋

/-- Python `f"{n:0Wd}"`: decimal rendering zero-filled to total width
`width`, the fill coming after the sign. -/
def zfill (width : Nat) (n : ℤ) : String :=
  let sign := if n < 0 then "-" else ""
  let s := toString n.natAbs
  sign ++ String.mk (List.replicate (width - (s.length + sign.length)) '0') ++ s

/-- `format_srt_timestamp` (`apply_labels.py`, lines 157–163):
`HH:MM:SS,mmm` from `int(seconds // 3600)`, `int((seconds % 3600) // 60)`,
`int(seconds % 60)` and `int((seconds % 1) * 1000)`. -/
def format_srt_timestamp (seconds : ℚ) : String :=
  let hours := pyInt (pyFloorDiv seconds 3600)
  let minutes := pyInt (pyFloorDiv (pyMod seconds 3600) 60)
  let secs := pyInt (pyMod seconds 60)
  let millis := pyInt (pyMod seconds 1 * 1000)
  zfill 2 hours ++ ":" ++ zfill 2 minutes ++ ":" ++ zfill 2 secs ++ "," ++
    zfill 3 millis

/-- `format_vtt_timestamp` (`apply_labels.py`, lines 166–172): same fields
with a dot millisecond separator. -/
def format_vtt_timestamp (seconds : ℚ) : String :=
  let hours := pyInt (pyFloorDiv seconds 3600)
  let minutes := pyInt (pyFloorDiv (pyMod seconds 3600) 60)
  let secs := pyInt (pyMod seconds 60)
  let millis := pyInt (pyMod seconds 1 * 1000)
  zfill 2 hours ++ ":" ++ zfill 2 minutes ++ ":" ++ zfill 2 secs ++ "." ++
    zfill 3 millis

/-- The specification's timestamp formula, written from its words:
`hours = floor(s/3600)`, `minutes = floor((s mod 3600)/60)`,
`secs = floor(s mod 60)`, `millis = floor((s mod 1)*1000)`, with
`s mod m = s - m*floor(s/m)`, zero-padded to 2/2/2/3 digits, separated
by the given millisecond separator. -/
def spec_timestamp (sep : String) (s : ℚ) : String :=
  zfill 2 ⌊s / 3600⌋ ++ ":" ++
    zfill 2 ⌊(s - 3600 * (⌊s / 3600⌋ : ℤ)) / 60⌋ ++ ":" ++
    zfill 2 ⌊s - 60 * (⌊s / 60⌋ : ℤ)⌋ ++ sep ++
    zfill 3 ⌊(s - (⌊s⌋ : ℤ)) * 1000⌋

/-- `pyInt` is the identity on integer casts (truncation of an integer). -/
lemma pyInt_intCast (n : ℤ) : pyInt (n : ℚ) = n := by
  unfold pyInt
  split
  · rw [← Int.cast_neg, Int.floor_intCast, neg_neg]
  · rw [Int.floor_intCast]

/-- A Python modulo by a positive divisor is non-negative. -/
lemma pyMod_nonneg (a b : ℚ) (hb : 0 < b) : 0 ≤ pyMod a b := by
  unfold pyMod
  have h1 : (⌊a / b⌋ : ℚ) ≤ a / b := Int.floor_le _
  have h2 : b * (⌊a / b⌋ : ℚ) ≤ b * (a / b) :=
    mul_le_mul_of_nonneg_left h1 hb.le
  rw [mul_div_cancel₀ a hb.ne'] at h2
  linarith

/-- `pyInt` of a non-negative number is its floor. -/
lemma pyInt_of_nonneg (q : ℚ) (h : 0 ≤ q) : pyInt q = ⌊q⌋ := by
  unfold pyInt
  rw [if_neg (not_lt.mpr h)]

/-- Both Python formatters compute exactly the specification's field
formulas, for every rational number of seconds. -/
lemma format_timestamp_eq_spec (s : ℚ) :
    format_srt_timestamp s = spec_timestamp "," s ∧
    format_vtt_timestamp s = spec_timestamp "." s := by
  have hours : pyInt (pyFloorDiv s 3600) = ⌊s / 3600⌋ := pyInt_intCast _
  have minutes : pyInt (pyFloorDiv (pyMod s 3600) 60) =
      ⌊(s - 3600 * (⌊s / 3600⌋ : ℤ)) / 60⌋ := by
    rw [pyFloorDiv, pyInt_intCast, pyMod]
  have secs : pyInt (pyMod s 60) = ⌊s - 60 * (⌊s / 60⌋ : ℤ)⌋ := by
    rw [pyInt_of_nonneg _ (pyMod_nonneg s 60 (by norm_num)), pyMod]
  have millis : pyInt (pyMod s 1 * 1000) = ⌊(s - (⌊s⌋ : ℤ)) * 1000⌋ := by
    rw [pyInt_of_nonneg _
      (mul_nonneg (pyMod_nonneg s 1 (by norm_num)) (by norm_num)), pyMod]
    norm_num
  unfold format_srt_timestamp format_vtt_timestamp spec_timestamp
  rw [hours, minutes, secs, millis]
  exact ⟨rfl, rfl⟩

/-- C8: for non-negative seconds the srt and vtt formatters compute
`hours = ⌊s/3600⌋`, `minutes = ⌊(s mod 3600)/60⌋`, `secs = ⌊s mod 60⌋`,
`millis = ⌊(s mod 1)·1000⌋`, zero-padded to 2/2/2/3 digits with a comma
(srt) or dot (vtt) millisecond separator; in particular `3725.25` renders
as `01:02:05,250` and `01:02:05.250`. -/
theorem format_timestamp_spec (s : ℚ) (h : 0 ≤ s) :
    (format_srt_timestamp s = spec_timestamp "," s ∧
     format_vtt_timestamp s = spec_timestamp "." s) ∧
    format_srt_timestamp 3725.25 = "01:02:05,250" ∧
    format_vtt_timestamp 3725.25 = "01:02:05.250" :=
  ⟨format_timestamp_eq_spec s,
   by with_unfolding_all rfl, by with_unfolding_all rfl⟩

/-- Witness for C8 at `s = 3725.25`. -/
theorem format_timestamp_spec_witness :
    (0 : ℚ) ≤ 3725.25 ∧
    ((format_srt_timestamp 3725.25 = spec_timestamp "," 3725.25 ∧
      format_vtt_timestamp 3725.25 = spec_timestamp "." 3725.25) ∧
     format_srt_timestamp 3725.25 = "01:02:05,250" ∧
     format_vtt_timestamp 3725.25 = "01:02:05.250") :=
  ⟨by norm_num, format_timestamp_spec 3725.25 (by norm_num)⟩

/-- C9 counterexample: a negative timestamp does not make the formatter
fail; `-1.5` seconds renders to the strings below (the hour field even
carries a minus sign), exactly as Python computes them. -/
theorem format_timestamp_negative_counterexample :
    format_srt_timestamp (-1.5) = "-1:59:58,500" ∧
    format_vtt_timestamp (-1.5) = "-1:59:58.500" :=
  ⟨by with_unfolding_all rfl, by with_unfolding_all rfl⟩

/-- C9 amended: the formatters are total and never signal an error; on a
negative timestamp they still apply the same floor/modulo formulas, and the
hour field becomes negative (a garbage timestamp, not a failure). -/
theorem format_timestamp_negative_total (s : ℚ) (h : s < 0) :
    format_srt_timestamp s = spec_timestamp "," s ∧
    format_vtt_timestamp s = spec_timestamp "." s ∧
    ⌊s / 3600⌋ < 0 := by
  refine ⟨(format_timestamp_eq_spec s).1, (format_timestamp_eq_spec s).2, ?_⟩
  have : s / 3600 < 0 := div_neg_of_neg_of_pos h (by norm_num)
  exact Int.floor_lt.mpr (by simpa using this)

/-- Witness for the amended C9 at `s = -1.5`. -/
theorem format_timestamp_negative_total_witness :
    (-1.5 : ℚ) < 0 ∧
    (format_srt_timestamp (-1.5) = spec_timestamp "," (-1.5) ∧
     format_vtt_timestamp (-1.5) = spec_timestamp "." (-1.5) ∧
     ⌊(-1.5 : ℚ) / 3600⌋ < 0) :=
  ⟨by norm_num, format_timestamp_negative_total (-1.5) (by norm_num)⟩

/-- A label entry as read by the renderer and written by the labeler
(`name` optional to model `labels[id].get("name", id)`; the wall-clock
`labeled_at` field is omitted). -/
structure LabelEntry where
  name : Option String
  email : Option String
  role : Option String
  source : String
  deriving Repr, DecidableEq

/-- `get_speaker_name` (`apply_labels.py`, lines 30–43): the entry's name
if the id is labeled and the entry has a name, else the id itself. -/
def get_speaker_name (speaker_id : String)
    (labels : List (String × LabelEntry)) : String :=
  match alistFind? labels speaker_id with
  | some entry => entry.name.getD speaker_id
  | none => speaker_id

/-- The fields of the labeled document that
`apply_labels_to_transcript` reads. -/
structure TranscriptData where
  segments : List MergedSegment
  labels : List (String × LabelEntry)
  audio_file : Option String
  duration : Option ℚ
  language : Option String
  num_speakers : Option Nat
  deriving Repr, DecidableEq

/-- The attributed-block opener emitted on a speaker change:
`**Name**: text` for md, `[Name] text` for txt (with the leading newline
the source puts in the f-string). -/
def headerLine (isMd : Bool) (speaker_name text : String) : String :=
  if isMd then "\n**" ++ speaker_name ++ "**: " ++ text
  else "\n[" ++ speaker_name ++ "] " ++ text

/-- The txt/md loop of `apply_labels_to_transcript` (lines 60–83): skip
blank-trimmed texts, open a block when the resolved name differs from
`current_speaker`, otherwise append the bare text. -/
def txtMdLines (isMd : Bool) (labels : List (String × LabelEntry)) :
    List MergedSegment → Option String → List String
  | [], _ => []
  | seg :: rest, current_speaker =>
      let speaker_name := get_speaker_name seg.speaker_id labels
      let text := seg.text.trim
      if text = "" then txtMdLines isMd labels rest current_speaker
      else if some speaker_name ≠ current_speaker then
        headerLine isMd speaker_name text ::
          txtMdLines isMd labels rest (some speaker_name)
      else text :: txtMdLines isMd labels rest current_speaker

/-- The srt loop (lines 109–129): the cue counter `i` comes from
`enumerate(segments, 1)` and advances on every segment, blank or not. -/
def srtLines (labels : List (String × LabelEntry)) :
    List MergedSegment → Nat → List String
  | [], _ => []
  | seg :: rest, i =>
      let speaker_name := get_speaker_name seg.speaker_id labels
      let text := seg.text.trim
      if text = "" then srtLines labels rest (i + 1)
      else
        toString i ::
        (format_srt_timestamp seg.start ++ " --> " ++
          format_srt_timestamp seg.«end») ::
        ("[" ++ speaker_name ++ "] " ++ text) ::
        "" :: srtLines labels rest (i + 1)

/-- The vtt loop (lines 131–151): like srt but without cue numbers. -/
def vttLines (labels : List (String × LabelEntry)) :
    List MergedSegment → List String
  | [] => []
  | seg :: rest =>
      let speaker_name := get_speaker_name seg.speaker_id labels
      let text := seg.text.trim
      if text = "" then vttLines labels rest
      else
        (format_vtt_timestamp seg.start ++ " --> " ++
          format_vtt_timestamp seg.«end») ::
        ("[" ++ speaker_name ++ "] " ++ text) ::
        "" :: vttLines labels rest

/-- One entry of the json output's segment list (resolved name and raw id
side by side). -/
structure JsonSegment where
  speaker : String
  speaker_id : String
  start : ℚ
  «end» : ℚ
  text : String
  deriving Repr, DecidableEq

/-- The structured document the json branch serialises with
`json.dumps`. -/
structure JsonTranscript where
  audio_file : Option String
  duration : Option ℚ
  language : Option String
  num_speakers : Option Nat
  segments : List JsonSegment
  labels : List (String × LabelEntry)
  deriving Repr, DecidableEq

/-- The renderer's result: a plain string for txt/md/srt/vtt, the
structured document for json (which the source then feeds to
`json.dumps`). -/
inductive Rendered where
  | str (s : String)
  | jdoc (j : JsonTranscript)
  deriving Repr, DecidableEq

/-- The five render targets accepted by `apply_labels.py`. -/
inductive RFormat where
  | txt | md | json | srt | vtt
  deriving Repr, DecidableEq

/-- `apply_labels_to_transcript` (`apply_labels.py`, lines 46–154). -/
def apply_labels_to_transcript (data : TranscriptData) (format : RFormat) :
    Rendered :=
  match format with
  | .txt =>
      .str (String.intercalate " "
        (txtMdLines false data.labels data.segments none)).trim
  | .md =>
      .str (String.intercalate " "
        (txtMdLines true data.labels data.segments none)).trim
  | .json =>
      .jdoc
        { audio_file := data.audio_file,
          duration := data.duration,
          language := data.language,
          num_speakers := data.num_speakers,
          segments := data.segments.map (fun seg =>
            { speaker := get_speaker_name seg.speaker_id data.labels,
              speaker_id := seg.speaker_id,
              start := seg.start, «end» := seg.«end», text := seg.text }),
          labels := data.labels }
  | .srt =>
      .str (String.intercalate "\n" (srtLines data.labels data.segments 1))
  | .vtt =>
      .str (String.intercalate "\n"
        ("WEBVTT" :: "" :: vttLines data.labels data.segments))

/-- A segment survives rendering when its trimmed text is non-empty. -/
def surviving (seg : MergedSegment) : Bool := seg.text.trim ≠ ""

/-- The specification's srt shape: one four-line cue block (number,
timestamp pair, `[Name] text` body, blank separator) per listed
(number, segment) pair. -/
def srtCueBlocks (labels : List (String × LabelEntry)) :
    List (Nat × MergedSegment) → List String
  | [] => []
  | (i, seg) :: rest =>
      toString i ::
      (format_srt_timestamp seg.start ++ " --> " ++
        format_srt_timestamp seg.«end») ::
      ("[" ++ get_speaker_name seg.speaker_id labels ++ "] " ++
        seg.text.trim) ::
      "" :: srtCueBlocks labels rest

/-- The surviving segments of a list, paired as
(resolved display name, trimmed text). -/
def survivingPairs (labels : List (String × LabelEntry))
    (segs : List MergedSegment) : List (String × String) :=
  (segs.filter surviving).map
    (fun seg => (get_speaker_name seg.speaker_id labels, seg.text.trim))

/-- The specification's grouping: maximal runs of consecutive pairs with
the same display name, each run collapsed into one
(name, texts of the run) block. -/
def speakerChunks : List (String × String) → List (String × List String)
  | [] => []
  | (n, t) :: rest =>
      match speakerChunks rest with
      | (n', ts) :: more =>
          if n = n' then (n, t :: ts) :: more
          else (n, [t]) :: (n', ts) :: more
      | [] => [(n, [t])]

/-- Render each block: the name is emitted once with the block's first
text, later texts follow as bare continuations. -/
def renderChunks (isMd : Bool) : List (String × List String) → List String
  | [] => []
  | (n, ts) :: more =>
      (match ts with
       | [] => []
       | t :: rest => headerLine isMd n t :: rest) ++ renderChunks isMd more

/-- `renderChunks` with an already-open block for `current`: a first chunk
whose name matches it continues without re-emitting the name. -/
def renderChunksFrom (isMd : Bool) (current : Option String)
    (chs : List (String × List String)) : List String :=
  match chs with
  | [] => []
  | (n, ts) :: more =>
      if some n = current then ts ++ renderChunks isMd more
      else renderChunks isMd ((n, ts) :: more)

/-- Unfolding of the txt/md loop on a blank-trimmed segment. -/
lemma txtMdLines_cons_blank (isMd : Bool)
    (labels : List (String × LabelEntry)) (seg : MergedSegment)
    (rest : List MergedSegment) (current : Option String)
    (h : seg.text.trim = "") :
    txtMdLines isMd labels (seg :: rest) current =
      txtMdLines isMd labels rest current := by
  simp [txtMdLines, h]

/-- Unfolding of the txt/md loop on a speaker change. -/
lemma txtMdLines_cons_new (isMd : Bool)
    (labels : List (String × LabelEntry)) (seg : MergedSegment)
    (rest : List MergedSegment) (current : Option String)
    (h : seg.text.trim ≠ "")
    (hc : some (get_speaker_name seg.speaker_id labels) ≠ current) :
    txtMdLines isMd labels (seg :: rest) current =
      headerLine isMd (get_speaker_name seg.speaker_id labels)
          seg.text.trim ::
        txtMdLines isMd labels rest
          (some (get_speaker_name seg.speaker_id labels)) := by
  simp [txtMdLines, h, hc]

/-- Unfolding of the txt/md loop on a continuing speaker. -/
lemma txtMdLines_cons_cont (isMd : Bool)
    (labels : List (String × LabelEntry)) (seg : MergedSegment)
    (rest : List MergedSegment) (current : Option String)
    (h : seg.text.trim ≠ "")
    (hc : some (get_speaker_name seg.speaker_id labels) = current) :
    txtMdLines isMd labels (seg :: rest) current =
      seg.text.trim :: txtMdLines isMd labels rest current := by
  simp [txtMdLines, h, hc]

/-- Filtering step on a blank segment. -/
lemma survivingPairs_cons_blank (labels : List (String × LabelEntry))
    (seg : MergedSegment) (rest : List MergedSegment)
    (h : seg.text.trim = "") :
    survivingPairs labels (seg :: rest) = survivingPairs labels rest := by
  simp [survivingPairs, List.filter_cons, surviving, h]

/-- Filtering step on a surviving segment. -/
lemma survivingPairs_cons (labels : List (String × LabelEntry))
    (seg : MergedSegment) (rest : List MergedSegment)
    (h : seg.text.trim ≠ "") :
    survivingPairs labels (seg :: rest) =
      (get_speaker_name seg.speaker_id labels, seg.text.trim) ::
        survivingPairs labels rest := by
  simp [survivingPairs, List.filter_cons, surviving, h]

/-- Blank-trimmed segments are invisible to the txt/md loop. -/
lemma txtMdLines_filter (isMd : Bool) (labels : List (String × LabelEntry))
    (segs : List MergedSegment) :
    ∀ current, txtMdLines isMd labels (segs.filter surviving) current =
      txtMdLines isMd labels segs current := by
  induction segs with
  | nil => intro current; rfl
  | cons seg rest ih =>
      intro current
      by_cases h : seg.text.trim = ""
      · have hs : surviving seg = false := by simp [surviving, h]
        rw [List.filter_cons, hs, if_neg (by simp),
          txtMdLines_cons_blank isMd labels seg rest current h]
        exact ih current
      · have hs : surviving seg = true := by simp [surviving, h]
        rw [List.filter_cons, hs, if_pos rfl]
        by_cases hc : some (get_speaker_name seg.speaker_id labels) = current
        · rw [txtMdLines_cons_cont isMd labels seg _ current h hc,
            txtMdLines_cons_cont isMd labels seg rest current h hc, ih]
        · rw [txtMdLines_cons_new isMd labels seg _ current h hc,
            txtMdLines_cons_new isMd labels seg rest current h hc, ih]

/-- Blank-trimmed segments are invisible to the vtt loop. -/
lemma vttLines_filter (labels : List (String × LabelEntry))
    (segs : List MergedSegment) :
    vttLines labels (segs.filter surviving) = vttLines labels segs := by
  induction segs with
  | nil => rfl
  | cons seg rest ih =>
      by_cases h : seg.text.trim = ""
      · have hs : surviving seg = false := by simp [surviving, h]
        rw [List.filter_cons, hs, if_neg (by simp)]
        rw [ih]
        simp [vttLines, h]
      · have hs : surviving seg = true := by simp [surviving, h]
        rw [List.filter_cons, hs, if_pos rfl]
        simp [vttLines, h, ih]

/-- The srt loop emits exactly one cue block per surviving segment, numbered
by the segment's position in the full (unfiltered) enumeration. -/
lemma srtLines_eq_cueBlocks (labels : List (String × LabelEntry))
    (segs : List MergedSegment) :
    ∀ i, srtLines labels segs i =
      srtCueBlocks labels
        ((List.enumFrom i segs).filter (fun p => surviving p.2)) := by
  induction segs with
  | nil => intro i; rfl
  | cons seg rest ih =>
      intro i
      by_cases h : seg.text.trim = ""
      · have hs : surviving seg = false := by simp [surviving, h]
        simp only [srtLines, h, if_pos, List.enumFrom, List.filter_cons, hs,
          Bool.false_eq_true, if_false]
        exact ih (i + 1)
      · have hs : surviving seg = true := by simp [surviving, h]
        simp only [srtLines, List.enumFrom, List.filter_cons, hs, if_true,
          srtCueBlocks]
        rw [if_neg h, ih (i + 1)]

/-- An empty `current_speaker` (the loop's initial `None`) always opens a
block on the first chunk. -/
lemma renderChunksFrom_none (isMd : Bool)
    (chs : List (String × List String)) :
    renderChunksFrom isMd none chs = renderChunks isMd chs := by
  cases chs with
  | nil => rfl
  | cons c more =>
      obtain ⟨n, ts⟩ := c
      simp [renderChunksFrom]

/-- The txt/md loop realises the chunk-and-render description: its output
lines are the rendered maximal same-name runs of the surviving segments,
the first run continuing `current` when the names agree. -/
lemma txtMdLines_eq_renderChunks (isMd : Bool)
    (labels : List (String × LabelEntry)) (segs : List MergedSegment) :
    ∀ current, txtMdLines isMd labels segs current =
      renderChunksFrom isMd current
        (speakerChunks (survivingPairs labels segs)) := by
  induction segs with
  | nil => intro current; rfl
  | cons seg rest ih =>
      intro current
      by_cases h : seg.text.trim = ""
      · rw [txtMdLines_cons_blank isMd labels seg rest current h,
          survivingPairs_cons_blank labels seg rest h]
        exact ih current
      · rw [survivingPairs_cons labels seg rest h]
        by_cases hc : some (get_speaker_name seg.speaker_id labels) = current
        · rw [txtMdLines_cons_cont isMd labels seg rest current h hc,
            ih current]
          subst hc
          cases hP : speakerChunks (survivingPairs labels rest) with
          | nil =>
              simp [speakerChunks, hP, renderChunksFrom, renderChunks]
          | cons c more =>
              obtain ⟨n', ts⟩ := c
              by_cases hn : get_speaker_name seg.speaker_id labels = n'
              · subst hn
                simp [speakerChunks, hP, renderChunksFrom, renderChunks]
              · simp [speakerChunks, hP, renderChunksFrom, renderChunks,
                  hn, Ne.symm hn]
        · rw [txtMdLines_cons_new isMd labels seg rest current h hc,
            ih (some (get_speaker_name seg.speaker_id labels))]
          cases hP : speakerChunks (survivingPairs labels rest) with
          | nil =>
              simp [speakerChunks, hP, renderChunksFrom, renderChunks, hc]
          | cons c more =>
              obtain ⟨n', ts⟩ := c
              by_cases hn : get_speaker_name seg.speaker_id labels = n'
              · subst hn
                simp [speakerChunks, hP, renderChunksFrom, renderChunks, hc]
              · simp [speakerChunks, hP, renderChunksFrom, renderChunks,
                  hc, hn, Ne.symm hn]

/-- C4 (code evaluated at the failing input): rendering three segments
whose middle one has blank-trimmed text to srt produces cues numbered `1`
and `3` — the blank segment advances the `enumerate(segments, 1)` counter
and leaves a numbering gap, where the specification demands contiguous
numbering `1, 2` over the surviving segments. -/
theorem srt_numbering_gap :
    apply_labels_to_transcript
      ⟨[⟨"A", 0, 1, "hi"⟩, ⟨"A", 1, 2, "   "⟩, ⟨"B", 2, 3, "ok"⟩],
        [], none, none, none, none⟩ RFormat.srt =
    .str ("1\n00:00:00,000 --> 00:00:01,000\n[A] hi\n\n" ++
          "3\n00:00:02,000 --> 00:00:03,000\n[B] ok\n") := by
  with_unfolding_all rfl

/-- C5 counterexample: the json branch keeps every segment; the rendered
structured document for a two-segment input whose second segment has
blank-trimmed text still contains an entry for it. -/
theorem json_keeps_blank_counterexample :
    apply_labels_to_transcript
      ⟨[⟨"A", 0, 1, "hi"⟩, ⟨"A", 1, 2, "   "⟩],
        [], none, none, none, none⟩ RFormat.json =
    .jdoc ⟨none, none, none, none,
      [⟨"A", "A", 0, 1, "hi"⟩, ⟨"A", "A", 1, 2, "   "⟩], []⟩ ∧
    ("   " : String).trim = "" :=
  ⟨by with_unfolding_all rfl, by with_unfolding_all rfl⟩

/-- C5 amended: the txt, md and vtt renderings are unchanged by removing
the blank-trimmed segments; srt emits exactly one cue block per surviving
segment (numbered by full-list position) and none for a blank one; the json
rendering instead retains one entry per input segment, blank or not. -/
theorem render_drops_blank_segments (data : TranscriptData) :
    apply_labels_to_transcript data RFormat.txt =
      apply_labels_to_transcript
        { data with segments := data.segments.filter surviving }
        RFormat.txt ∧
    apply_labels_to_transcript data RFormat.md =
      apply_labels_to_transcript
        { data with segments := data.segments.filter surviving }
        RFormat.md ∧
    apply_labels_to_transcript data RFormat.vtt =
      apply_labels_to_transcript
        { data with segments := data.segments.filter surviving }
        RFormat.vtt ∧
    srtLines data.labels data.segments 1 =
      srtCueBlocks data.labels
        ((List.enumFrom 1 data.segments).filter (fun p => surviving p.2)) ∧
    ∃ j, apply_labels_to_transcript data RFormat.json = .jdoc j ∧
      j.segments.length = data.segments.length := by
  refine ⟨?_, ?_, ?_, srtLines_eq_cueBlocks data.labels data.segments 1, ?_⟩
  · simp [apply_labels_to_transcript, txtMdLines_filter]
  · simp [apply_labels_to_transcript, txtMdLines_filter]
  · simp [apply_labels_to_transcript, vttLines_filter]
  · exact ⟨_, rfl, by simp [apply_labels_to_transcript]⟩

/-- C7: the txt/md rendering is exactly the block rendering of the maximal
same-display-name runs of the surviving segments (one name emission per
run, continuations appended); on the example `[(A,hi),(A,there),(B,ok)]`
the runs are two, and the rendered txt output contains two attributed
blocks, not three. -/
theorem txtMd_groups_consecutive_speakers (isMd : Bool)
    (labels : List (String × LabelEntry)) (segs : List MergedSegment) :
    txtMdLines isMd labels segs none =
      renderChunks isMd (speakerChunks (survivingPairs labels segs)) ∧
    speakerChunks (survivingPairs []
        [⟨"A", 0, 1, "hi"⟩, ⟨"A", 1, 2, "there"⟩, ⟨"B", 2, 3, "ok"⟩]) =
      [("A", ["hi", "there"]), ("B", ["ok"])] ∧
    (speakerChunks (survivingPairs []
        [⟨"A", 0, 1, "hi"⟩, ⟨"A", 1, 2, "there"⟩,
          ⟨"B", 2, 3, "ok"⟩])).length = 2 ∧
    apply_labels_to_transcript
        ⟨[⟨"A", 0, 1, "hi"⟩, ⟨"A", 1, 2, "there"⟩, ⟨"B", 2, 3, "ok"⟩],
          [], none, none, none, none⟩ RFormat.txt =
      .str "[A] hi there \n[B] ok" := by
  refine ⟨?_, by with_unfolding_all rfl, by with_unfolding_all rfl,
    by with_unfolding_all rfl⟩
  rw [txtMdLines_eq_renderChunks isMd labels segs none,
    renderChunksFrom_none]

/-- One scripted line of interactive input: a typed response, or an
interrupt (`KeyboardInterrupt`/`EOFError` in the source). -/
inductive UserInput where
  | resp (s : String)
  | interrupt
  deriving Repr, DecidableEq

/-- Python `dict[k] = v`: overwrite in place when the key exists, append
otherwise. -/
def alistInsert {β : Type} (m : List (String × β)) (k : String) (v : β) :
    List (String × β) :=
  match alistFind? m k with
  | some _ => alistSet m k v
  | none => m ++ [(k, v)]

/-- Insert into an ascending list of strings. -/
def insertSorted (x : String) : List String → List String
  | [] => [x]
  | y :: ys => if x ≤ y then x :: y :: ys else y :: insertSorted x ys

/-- Python `sorted` on a list of strings (insertion sort). -/
def sortStrings (l : List String) : List String := l.foldr insertSorted []

/-- `sorted(set(seg["speaker_id"] for seg in data["segments"]))` of
`interactive_label_speakers`. -/
def labelSpeakers (data : TranscriptData) : List String :=
  sortStrings ((data.segments.map (fun s => s.speaker_id)).dedup)

/-- The prompt loop of `interactive_label_speakers` (`label.py`, lines
146–185) for one speaker, driven by the scripted inputs: `m` re-samples
and re-prompts, a non-empty response commits a `manual` entry, an empty
response asks for a skip confirmation (`y` commits a `skipped` entry named
by the id, anything else re-prompts), and an interrupt or the end of input
aborts with no entry.  Returns the committed entry and the remaining
inputs, or `none` on abort. -/
def promptOne (speaker_id : String) :
    List UserInput → Option (LabelEntry × List UserInput)
  | [] => none
  | .interrupt :: _ => none
  | .resp r :: rest =>
      let response := r.trim
      if response.toLower = "m" then promptOne speaker_id rest
      else if response ≠ "" then
        some (⟨some response, none, none, "manual"⟩, rest)
      else
        match rest with
        | [] => none
        | .interrupt :: _ => none
        | .resp s :: rest2 =>
            if s.trim.toLower = "y" then
              some (⟨some speaker_id, none, none, "skipped"⟩, rest2)
            else promptOne speaker_id rest2

/-- The outer speaker loop of `interactive_label_speakers`: visit the
speakers in order, committing one entry per speaker; an abort inside a
prompt exits the process (exit code 1) with the labels dict as committed
so far (carried on the error branch). -/
def interactive_label_speakers_loop :
    List String → List (String × LabelEntry) → List UserInput →
    Except (List (String × LabelEntry))
      (List (String × LabelEntry) × List UserInput)
  | [], labels, inputs => .ok (labels, inputs)
  | sp :: rest, labels, inputs =>
      match promptOne sp inputs with
      | none => .error labels
      | some (entry, inputs2) =>
          interactive_label_speakers_loop rest
            (alistInsert labels sp entry) inputs2

/-- `interactive_label_speakers` (`label.py`, lines 105–196): error when
no speakers are found, otherwise run the loop and store the final labels
into the document. -/
def interactive_label_speakers (data : TranscriptData)
    (inputs : List UserInput) :
    Except (List (String × LabelEntry)) TranscriptData :=
  let speakers := labelSpeakers data
  if speakers.isEmpty then .error data.labels
  else
    match interactive_label_speakers_loop speakers data.labels inputs with
    | .error L => .error L
    | .ok (labels, _) => .ok { data with labels := labels }

/-- The interactive path of `main` (`label.py`, lines 234–245):
`save_labeled` runs only when labeling returned normally; `sys.exit(1)`
(not an `Exception`) propagates past the `try` block, so on abort nothing
is written. -/
def label_main (data : TranscriptData) (inputs : List UserInput) :
    Option TranscriptData :=
  match interactive_label_speakers data inputs with
  | .error _ => none
  | .ok labeled => some labeled

/-- Inserting into a sorted list never yields the empty list. -/
lemma insertSorted_ne_nil (x : String) (l : List String) :
    insertSorted x l ≠ [] := by
  cases l with
  | nil => simp [insertSorted]
  | cons y ys =>
      simp only [insertSorted]
      split <;> simp

/-- Sorting a non-empty list yields a non-empty list. -/
lemma sortStrings_ne_nil (l : List String) (h : l ≠ []) :
    sortStrings l ≠ [] := by
  cases l with
  | nil => exact absurd rfl h
  | cons a as => exact insertSorted_ne_nil a _

/-- If the speaker loop aborts with labels `L`, then for some `k` the first
`k` speakers were each fully committed — reaching exactly the state `L` —
and the prompt for speaker `k` aborted without committing anything. -/
lemma label_loop_error (speakers : List String) :
    ∀ (labels : List (String × LabelEntry)) (inputs : List UserInput)
      (L : List (String × LabelEntry)),
    interactive_label_speakers_loop speakers labels inputs = .error L →
    ∃ (k : ℕ) (hk : k < speakers.length) (inputs2 : List UserInput),
      interactive_label_speakers_loop (speakers.take k) labels inputs =
        .ok (L, inputs2) ∧
      promptOne speakers[k] inputs2 = none := by
  induction speakers with
  | nil =>
      intro labels inputs L h
      simp [interactive_label_speakers_loop] at h
  | cons sp rest ih =>
      intro labels inputs L h
      cases hp : promptOne sp inputs with
      | none =>
          simp only [interactive_label_speakers_loop, hp] at h
          cases h
          refine ⟨0, by simp, inputs, ?_, ?_⟩
          · rfl
          · simpa using hp
      | some p =>
          obtain ⟨entry, inputs2⟩ := p
          simp only [interactive_label_speakers_loop, hp] at h
          obtain ⟨k, hk, inputs3, h1, h2⟩ :=
            ih (alistInsert labels sp entry) inputs2 L h
          refine ⟨k + 1, by simpa using hk, inputs3, ?_, ?_⟩
          · rw [List.take_succ_cons]
            simpa only [interactive_label_speakers_loop, hp] using h1
          · simpa using h2

/-- C10: if the interactive labeling workflow aborts (interrupt or end of
input) the whole run halts without writing any output document, the labels
at exit are exactly those fully committed for the speakers before the
in-progress one (prior commits intact, nothing partial), and the
in-progress speaker's prompt committed nothing. -/
theorem user_abort_preserves_committed_labels (data : TranscriptData)
    (inputs : List UserInput) (L : List (String × LabelEntry))
    (hseg : data.segments ≠ [])
    (h : interactive_label_speakers data inputs = .error L) :
    label_main data inputs = none ∧
    ∃ (k : ℕ) (hk : k < (labelSpeakers data).length)
      (inputs2 : List UserInput),
      interactive_label_speakers_loop ((labelSpeakers data).take k)
          data.labels inputs = .ok (L, inputs2) ∧
      promptOne (labelSpeakers data)[k] inputs2 = none := by
  refine ⟨by simp [label_main, h], ?_⟩
  have hne : labelSpeakers data ≠ [] := by
    apply sortStrings_ne_nil
    simp only [ne_eq, List.dedup_eq_nil, List.map_eq_nil_iff]
    exact hseg
  rw [interactive_label_speakers] at h
  simp only [List.isEmpty_iff] at h
  rw [if_neg hne] at h
  revert h
  cases hloop : interactive_label_speakers_loop (labelSpeakers data)
      data.labels inputs with
  | error M =>
      intro h
      injection h with hML
      subst hML
      exact label_loop_error (labelSpeakers data) data.labels inputs M hloop
  | ok p =>
      intro h
      simp at h

/-- Demonstration input for C10: two speakers, the user names the first
and interrupts at the second. -/
def labelDemoData : TranscriptData :=
  ⟨[⟨"A", 0, 1, "hi"⟩, ⟨"B", 1, 2, "ok"⟩], [], none, none, none, none⟩

/-- The scripted inputs of the demonstration run. -/
def labelDemoInputs : List UserInput := [.resp "Alice", .interrupt]

/-- Witness for C10: on the demonstration run the workflow aborts holding
exactly the committed entry for speaker `A`, and writes nothing. -/
theorem user_abort_preserves_committed_labels_witness :
    labelDemoData.segments ≠ [] ∧
    interactive_label_speakers labelDemoData labelDemoInputs =
      .error [("A", ⟨some "Alice", none, none, "manual"⟩)] ∧
    (label_main labelDemoData labelDemoInputs = none ∧
     ∃ (k : ℕ) (hk : k < (labelSpeakers labelDemoData).length)
       (inputs2 : List UserInput),
       interactive_label_speakers_loop
           ((labelSpeakers labelDemoData).take k)
           labelDemoData.labels labelDemoInputs = .ok
             ([("A", ⟨some "Alice", none, none, "manual"⟩)], inputs2) ∧
       promptOne (labelSpeakers labelDemoData)[k] inputs2 = none) :=
  ⟨by simp [labelDemoData], by with_unfolding_all rfl,
   user_abort_preserves_committed_labels labelDemoData labelDemoInputs _
     (by simp [labelDemoData]) (by with_unfolding_all rfl)⟩

end Hushnote
